import Mathlib

/-!
Verification development for the HeroWizzard transaction-import subsystem
(`apps/transactions/services.py` and `apps/transactions/models.py`).

The Python service is shallowly embedded: CSV rows become association lists
of strings, Django `Decimal` values become an exact coefficient-exponent
pair (`PyDec`), dates become a `PDate`
structure, and the database of persisted transactions becomes a list of
external transaction IDs.  Each definition mirrors one Python function; the
theorems at the end of the file settle the specification claims.
-/

set_option maxRecDepth 4000

/-! ## String utilities (Python `str.strip`, `str.lower`, `in`) -/

/-- Characters stripped by Python `str.strip()` (ASCII whitespace plus NBSP;
other exotic unicode spaces do not occur in the embedded data). -/
def isPyWs (c : Char) : Bool :=
  c = ' ' ∨ c = '\t' ∨ c = '\n' ∨ c = '\r' ∨ c = '\x0b' ∨ c = '\x0c' ∨ c = ' '

def pyStripL (l : List Char) : List Char :=
  ((l.dropWhile isPyWs).reverse.dropWhile isPyWs).reverse

/-- Python `value.strip()`. -/
def pyStrip (s : String) : String :=
  ⟨pyStripL s.data⟩

/-- ASCII case folding, modelling Python `str.lower()` on the ASCII range. -/
def lowerChar (c : Char) : Char :=
  if 'A' ≤ c ∧ c ≤ 'Z' then Char.ofNat (c.toNat + 32) else c

def pyLowerL (l : List Char) : List Char :=
  l.map lowerChar

/-- Python `s.lower()`. -/
def pyLower (s : String) : String :=
  ⟨pyLowerL s.data⟩

/-- Python `needle in hay` on strings (substring containment). -/
def pyInStr (needle hay : String) : Bool :=
  decide (needle.data <:+: hay.data)

/-! ## Dates: model of `datetime.date` and the strptime patterns used -/

structure PDate where
  year : Nat
  month : Nat
  day : Nat
deriving DecidableEq

structure PDateTime where
  date : PDate
  hour : Nat
  minute : Nat
  second : Nat
deriving DecidableEq

def isLeapYear (y : Nat) : Bool :=
  y % 4 = 0 ∧ (y % 100 ≠ 0 ∨ y % 400 = 0)

def daysInMonth (y m : Nat) : Nat :=
  if m = 2 then (if isLeapYear y then 29 else 28)
  else if m = 4 ∨ m = 6 ∨ m = 9 ∨ m = 11 then 30
  else 31

/-- `datetime.date(y, m, d)` construction check (month/day lower bounds are
guaranteed by the pattern parsers; year is at most 4 digits). -/
def mkDate (y m d : Nat) : Option PDate :=
  if 1 ≤ y ∧ d ≤ daysInMonth y m then some ⟨y, m, d⟩ else none

def digitVal (c : Char) : Nat := c.toNat - 48

/-- Candidates for strptime `%d` (regex `3[01]|[12]\d|0[1-9]|[1-9]`):
two-digit alternatives first, then the single digit, as the regex tries them. -/
def dayCands : List Char → List (Nat × List Char)
  | a :: b :: rest =>
    (if a.isDigit ∧ b.isDigit ∧ 1 ≤ 10 * digitVal a + digitVal b ∧
        10 * digitVal a + digitVal b ≤ 31 then
      [(10 * digitVal a + digitVal b, rest)] else []) ++
    (if a.isDigit ∧ 1 ≤ digitVal a ∧ digitVal a ≤ 9 then [(digitVal a, b :: rest)] else [])
  | [a] => if a.isDigit ∧ 1 ≤ digitVal a ∧ digitVal a ≤ 9 then [(digitVal a, [])] else []
  | [] => []

/-- Candidates for strptime `%m` (regex `1[0-2]|0[1-9]|[1-9]`). -/
def monthCands : List Char → List (Nat × List Char)
  | a :: b :: rest =>
    (if a.isDigit ∧ b.isDigit ∧ 1 ≤ 10 * digitVal a + digitVal b ∧
        10 * digitVal a + digitVal b ≤ 12 then
      [(10 * digitVal a + digitVal b, rest)] else []) ++
    (if a.isDigit ∧ 1 ≤ digitVal a ∧ digitVal a ≤ 9 then [(digitVal a, b :: rest)] else [])
  | [a] => if a.isDigit ∧ 1 ≤ digitVal a ∧ digitVal a ≤ 9 then [(digitVal a, [])] else []
  | [] => []

/-- Candidates for strptime `%H` (regex `2[0-3]|[0-1]\d|\d`). -/
def hourCands : List Char → List (Nat × List Char)
  | a :: b :: rest =>
    (if a.isDigit ∧ b.isDigit ∧ 10 * digitVal a + digitVal b ≤ 23 then
      [(10 * digitVal a + digitVal b, rest)] else []) ++
    (if a.isDigit then [(digitVal a, b :: rest)] else [])
  | [a] => if a.isDigit then [(digitVal a, [])] else []
  | [] => []

/-- Candidates for strptime `%M` (regex `[0-5]\d|\d`). -/
def minuteCands : List Char → List (Nat × List Char)
  | a :: b :: rest =>
    (if a.isDigit ∧ b.isDigit ∧ 10 * digitVal a + digitVal b ≤ 59 then
      [(10 * digitVal a + digitVal b, rest)] else []) ++
    (if a.isDigit then [(digitVal a, b :: rest)] else [])
  | [a] => if a.isDigit then [(digitVal a, [])] else []
  | [] => []

/-- Candidates for strptime `%S` (regex `6[0-1]|[0-5]\d|\d`). -/
def secondCands : List Char → List (Nat × List Char)
  | a :: b :: rest =>
    (if a.isDigit ∧ b.isDigit ∧ 10 * digitVal a + digitVal b ≤ 61 then
      [(10 * digitVal a + digitVal b, rest)] else []) ++
    (if a.isDigit then [(digitVal a, b :: rest)] else [])
  | [a] => if a.isDigit then [(digitVal a, [])] else []
  | [] => []

/-- strptime `%Y` (regex `\d\d\d\d`: exactly four digits). -/
def year4 : List Char → Option (Nat × List Char)
  | a :: b :: c :: d :: rest =>
    if a.isDigit ∧ b.isDigit ∧ c.isDigit ∧ d.isDigit then
      some (1000 * digitVal a + 100 * digitVal b + 10 * digitVal c + digitVal d, rest)
    else none
  | _ => none

/-- A literal character in a strptime format. -/
def litChar (c : Char) : List Char → Option (List Char)
  | x :: rest => if x = c then some rest else none
  | [] => none

/-- Whitespace in a strptime format is compiled to `\s+`. -/
def ws1 : List Char → Option (List Char)
  | x :: rest => if isPyWs x then some (rest.dropWhile isPyWs) else none
  | [] => none

/-- Try each numeric-field candidate (in regex alternation order) against the
continuation, taking the first one for which the rest of the pattern matches. -/
def pickN {α : Type} (cands : List (Nat × List Char)) (k : Nat → List Char → Option α) :
    Option α :=
  match cands with
  | [] => none
  | (n, r) :: more => (k n r) <|> pickN more k

/-- strptime with format `"%d.%m.%Y %H:%M"` (Raiffeisen datetime). -/
def fmtDMYHM (cs : List Char) : Option PDateTime :=
  pickN (dayCands cs) (fun d l1 => do
    let l2 ← litChar '.' l1
    pickN (monthCands l2) (fun m l3 => do
      let l4 ← litChar '.' l3
      let (y, l5) ← year4 l4
      let l6 ← ws1 l5
      pickN (hourCands l6) (fun h l7 => do
        let l8 ← litChar ':' l7
        pickN (minuteCands l8) (fun mi l9 =>
          if l9 = [] then (mkDate y m d).map (fun dt => ⟨dt, h, mi, 0⟩) else none))))

/-- strptime with format `"%d.%m.%Y"` (Czech date). -/
def fmtDMY (cs : List Char) : Option PDateTime :=
  pickN (dayCands cs) (fun d l1 => do
    let l2 ← litChar '.' l1
    pickN (monthCands l2) (fun m l3 => do
      let l4 ← litChar '.' l3
      let (y, l5) ← year4 l4
      if l5 = [] then (mkDate y m d).map (fun dt => ⟨dt, 0, 0, 0⟩) else none))

/-- strptime with format `"%d/%m/%Y"`. -/
def fmtDMYSlash (cs : List Char) : Option PDateTime :=
  pickN (dayCands cs) (fun d l1 => do
    let l2 ← litChar '/' l1
    pickN (monthCands l2) (fun m l3 => do
      let l4 ← litChar '/' l3
      let (y, l5) ← year4 l4
      if l5 = [] then (mkDate y m d).map (fun dt => ⟨dt, 0, 0, 0⟩) else none))

/-- strptime with format `"%Y-%m-%d"` (ISO date). -/
def fmtYMD (cs : List Char) : Option PDateTime := do
  let (y, l1) ← year4 cs
  let l2 ← litChar '-' l1
  pickN (monthCands l2) (fun m l3 => do
    let l4 ← litChar '-' l3
    pickN (dayCands l4) (fun d l5 =>
      if l5 = [] then (mkDate y m d).map (fun dt => ⟨dt, 0, 0, 0⟩) else none))

/-- strptime with format `"%Y-%m-%d %H:%M:%S"` (ISO datetime); seconds above
59 pass the pattern but fail `datetime` construction. -/
def fmtYMDHMS (cs : List Char) : Option PDateTime := do
  let (y, l1) ← year4 cs
  let l2 ← litChar '-' l1
  pickN (monthCands l2) (fun m l3 => do
    let l4 ← litChar '-' l3
    pickN (dayCands l4) (fun d l5 => do
      let l6 ← ws1 l5
      pickN (hourCands l6) (fun h l7 => do
        let l8 ← litChar ':' l7
        pickN (minuteCands l8) (fun mi l9 => do
          let l10 ← litChar ':' l9
          pickN (secondCands l10) (fun se l11 =>
            if l11 = [] ∧ se ≤ 59 then (mkDate y m d).map (fun dt => ⟨dt, h, mi, se⟩)
            else none)))))

/-- The ordered format list of `TransactionImporter._parse_date`. -/
def csvDateFormats : List (List Char → Option PDateTime) :=
  [fmtDMYHM, fmtDMY, fmtDMYSlash, fmtYMD, fmtYMDHMS]

/-- `TransactionImporter._parse_date`: try each format in order, return the
date component of the first success. -/
def pyParseDate (value : String) : Option PDate :=
  ((((fmtDMYHM (pyStrip value).data <|> fmtDMY (pyStrip value).data) <|>
      fmtDMYSlash (pyStrip value).data) <|> fmtYMD (pyStrip value).data) <|>
    fmtYMDHMS (pyStrip value).data).map (fun dt => dt.date)

/-- `TransactionImporter._parse_date` with its `ValueError` on exhaustion. -/
def pyParseDateE (value : String) : Except String PDate :=
  match pyParseDate value with
  | some d => .ok d
  | none => .error ("Unable to parse date: " ++ value)

/-! ## Decimals: model of `Decimal(...)` on cleaned Czech-format strings -/

def digitsVal (l : List Char) : Nat :=
  l.foldl (fun acc c => 10 * acc + digitVal c) 0

/-- Python `decimal.Decimal`, as stored: a signed coefficient and a power-of-
ten exponent, so `Decimal("22500.00")` is `⟨2250000, -2⟩`.  This keeps the
trailing-zero scale that `DecimalValidator` inspects. -/
structure PyDec where
  coeff : Int
  exp : Int
deriving DecidableEq

def pyDecOfInt (n : Int) : PyDec := ⟨n, 0⟩

/-- Rescale two decimals to their common (minimal) exponent. -/
def pyDecAligned (a b : PyDec) : Int × Int :=
  let m := min a.exp b.exp
  (a.coeff * ((10 : Nat) ^ (a.exp - m).toNat : Nat),
   b.coeff * ((10 : Nat) ^ (b.exp - m).toNat : Nat))

/-- Numeric equality of `Decimal` values (`==`). -/
def pyDecEq (a b : PyDec) : Bool :=
  (pyDecAligned a b).1 = (pyDecAligned a b).2

/-- Numeric strict order of `Decimal` values (`<`). -/
def pyDecLt (a b : PyDec) : Bool :=
  (pyDecAligned a b).1 < (pyDecAligned a b).2

/-- Numeric order of `Decimal` values (`<=`). -/
def pyDecLe (a b : PyDec) : Bool :=
  (pyDecAligned a b).1 ≤ (pyDecAligned a b).2

/-- `Decimal` addition (exact: the operands here are far below the default
28-digit context precision, so no rounding occurs). -/
def pyDecAdd (a b : PyDec) : PyDec :=
  ⟨(pyDecAligned a b).1 + (pyDecAligned a b).2, min a.exp b.exp⟩

/-- Numeric-string grammar of Python `Decimal(str)`:
`[sign] (digits [. digits*] | . digits+) [exp]` with optional surrounding
whitespace.  The special values `NaN`/`Infinity` are modelled as parse
failures: a `DecimalField` would reject them at validation time in any
case. -/
def pyDecimal (s : String) : Option PyDec :=
  let l := pyStripL s.data
  let (sign, l1) : Int × List Char :=
    match l with
    | '-' :: rest => (-1, rest)
    | '+' :: rest => (1, rest)
    | _ => (1, l)
  let intDigits := l1.takeWhile Char.isDigit
  let l2 := l1.dropWhile Char.isDigit
  let (fracDigits, l3) : List Char × List Char :=
    match l2 with
    | '.' :: rest => (rest.takeWhile Char.isDigit, rest.dropWhile Char.isDigit)
    | _ => ([], l2)
  if intDigits = [] ∧ fracDigits = [] then none
  else
    let coeff : Int := sign * (digitsVal (intDigits ++ fracDigits) : Nat)
    match l3 with
    | [] => some ⟨coeff, -(fracDigits.length : Int)⟩
    | e :: l4 =>
      if e = 'e' ∨ e = 'E' then
        let (esign, l5) : Int × List Char :=
          match l4 with
          | '-' :: rest => (-1, rest)
          | '+' :: rest => (1, rest)
          | _ => (1, l4)
        let expDigits := l5.takeWhile Char.isDigit
        let l6 := l5.dropWhile Char.isDigit
        if expDigits = [] ∨ l6 ≠ [] then none
        else some ⟨coeff, esign * (digitsVal expDigits : Nat) - (fracDigits.length : Int)⟩
      else none

/-- The cleaning step of `_parse_decimal`:
`value.replace(" ", "").replace("\xa0", "").replace(",", ".")` (all three
patterns are single characters). -/
def cleanDecimalChars (l : List Char) : List Char :=
  ((l.filter (fun c => c ≠ ' ')).filter (fun c => c ≠ '\u00A0')).map
    (fun c => if c = ',' then '.' else c)

/-- `TransactionImporter._parse_decimal`: strip spaces and non-breaking
spaces, turn the decimal comma into a period, parse; on failure raise a
`ValueError` naming the original literal. -/
def pyParseDecimalE (value : String) : Except String PyDec :=
  match pyDecimal ⟨cleanDecimalChars value.data⟩ with
  | some q => .ok q
  | none => .error ("Unable to parse decimal: " ++ value)

/-! ## Association-list dictionaries (Python `dict` with string values) -/

/-- A parsed CSV row: canonical field name to raw string value. -/
abbrev Row : Type := List (String × String)

/-- Python `d.get(k)`. -/
def dget (d : Row) (k : String) : Option String :=
  (d.find? (fun e => e.1 = k)).map (fun e => e.2)

/-- Python `d[k] = v`: update in place if present, else append. -/
def dset : Row → String → String → Row
  | [], k, v => [(k, v)]
  | (k', v') :: rest, k, v =>
    if k' = k then (k, v) :: rest else (k', v') :: dset rest k v

/-! ## Data model: `Transaction`, lookup references, `CategoryRule` -/

/-- A `ProductSubgroup` row (`id` primary key plus its `product` foreign key). -/
structure Podskupina where
  id : String
  product_id : String
deriving DecidableEq

/-- The `Transaction` model: bank columns and categorization columns.
Audit fields (`import_batch_id`, `created_by`, timestamps) do not influence
validation or the import flow and are not modelled. -/
structure Transaction where
  datum : Option PDate := none
  ucet : String := ""
  typ : String := ""
  poznamka_zprava : String := ""
  variabilni_symbol : String := ""
  castka : Option PyDec := none
  datum_zauctovani : Option PDate := none
  cislo_protiuctu : String := ""
  nazev_protiuctu : String := ""
  typ_transakce : String := ""
  konstantni_symbol : String := ""
  specificky_symbol : String := ""
  puvodni_castka : Option PyDec := none
  puvodni_mena : String := ""
  poplatky : Option PyDec := none
  id_transakce : String := ""
  vlastni_poznamka : String := ""
  nazev_merchanta : String := ""
  mesto : String := ""
  mena : String := "CZK"
  banka_protiuctu : String := ""
  reference : String := ""
  status : String := "importovano"
  prijem_vydaj : String := ""
  vlastni_nevlastni : String := "-"
  dane : Bool := false
  druh : String := ""
  detail : String := ""
  kmen : String := ""
  mh_pct : PyDec := ⟨0, -2⟩
  sk_pct : PyDec := ⟨0, -2⟩
  xp_pct : PyDec := ⟨0, -2⟩
  fr_pct : PyDec := ⟨0, -2⟩
  projekt_id : Option String := none
  produkt_id : Option String := none
  podskupina : Option Podskupina := none
deriving DecidableEq

inductive MatchType where
  | protiucet
  | merchant
  | keyword
deriving DecidableEq

inductive MatchMode where
  | exact
  | contains
  | regex
deriving DecidableEq

/-- A `CategoryRule` row: matching configuration plus sparse `set_*` targets. -/
structure CategoryRule where
  name : String
  match_type : MatchType
  match_mode : MatchMode
  match_value : String
  case_sensitive : Bool := false
  priority : Nat := 100
  is_active : Bool := true
  set_prijem_vydaj : String := ""
  set_vlastni_nevlastni : String := ""
  set_dane : Option Bool := none
  set_druh : String := ""
  set_detail : String := ""
  set_kmen : String := ""
  set_mh_pct : Option PyDec := none
  set_sk_pct : Option PyDec := none
  set_xp_pct : Option PyDec := none
  set_fr_pct : Option PyDec := none
  set_projekt_id : Option String := none
  set_produkt_id : Option String := none
  set_podskupina : Option Podskupina := none
deriving DecidableEq

/-! ## Model validation (`Transaction.full_clean`) -/

/-- Truthiness of an optional decimal field (`if self.castka:`). -/
def decTruthy : Option PyDec → Bool
  | none => false
  | some q => q.coeff ≠ 0

/-- Decimal digit count of a coefficient (`len(digit_tuple)`; zero has the
single digit tuple `(0,)`). -/
def digitCount (n : Nat) : Nat :=
  (Nat.toDigits 10 n).length

/-- Errors of a required `CharField` (blank not allowed) with a length cap. -/
def reqStrErrs (name : String) (v : String) (maxLen : Nat) : List (String × String) :=
  (if v = "" then [(name, "blank")] else []) ++
  (if v.length ≤ maxLen then [] else [(name, "max_length")])

/-- Errors of a blank-allowed `CharField`/`TextField` with a length cap. -/
def lenErrs (name : String) (v : String) (maxLen : Nat) : List (String × String) :=
  if v.length ≤ maxLen then [] else [(name, "max_length")]

/-- `django.core.validators.DecimalValidator(max_digits, decimal_places)`:
digit counting over the stored `(digits, exponent)` tuple. -/
def decValidatorErrs (name : String) (q : PyDec) (maxDigits dp : Nat) :
    List (String × String) :=
  let dcount := digitCount q.coeff.natAbs
  let digits :=
    if 0 ≤ q.exp then dcount + q.exp.toNat
    else if dcount < (-q.exp).toNat then (-q.exp).toNat
    else dcount
  let decimals := if 0 ≤ q.exp then 0 else (-q.exp).toNat
  (if digits ≤ maxDigits then [] else [(name, "max_digits")]) ++
  (if decimals ≤ dp then [] else [(name, "decimal_places")]) ++
  (if digits - decimals ≤ maxDigits - dp then [] else [(name, "whole_digits")])

/-- Errors of a percentage field (`MinValueValidator(0)`,
`MaxValueValidator(100)`, `max_digits=5`, `decimal_places=2`). -/
def pctFieldErrs (name : String) (q : PyDec) : List (String × String) :=
  (if pyDecLe (pyDecOfInt 0) q then [] else [(name, "min_value")]) ++
  (if pyDecLe q (pyDecOfInt 100) then [] else [(name, "max_value")]) ++
  decValidatorErrs name q 5 2

/-- `Model.clean_fields`: per-field validation (required, choices, length,
decimal validators) for the fields of `Transaction`. -/
def cleanFieldsErrors (t : Transaction) : List (String × String) :=
  (if t.datum.isSome then [] else [("datum", "null")]) ++
  reqStrErrs "ucet" t.ucet 50 ++
  reqStrErrs "typ" t.typ 100 ++
  lenErrs "variabilni_symbol" t.variabilni_symbol 20 ++
  (match t.castka with
   | none => [("castka", "null")]
   | some q => decValidatorErrs "castka" q 15 2) ++
  lenErrs "cislo_protiuctu" t.cislo_protiuctu 50 ++
  lenErrs "nazev_protiuctu" t.nazev_protiuctu 200 ++
  lenErrs "typ_transakce" t.typ_transakce 100 ++
  lenErrs "konstantni_symbol" t.konstantni_symbol 10 ++
  lenErrs "specificky_symbol" t.specificky_symbol 20 ++
  (match t.puvodni_castka with
   | none => []
   | some q => decValidatorErrs "puvodni_castka" q 15 2) ++
  lenErrs "puvodni_mena" t.puvodni_mena 10 ++
  (match t.poplatky with
   | none => []
   | some q => decValidatorErrs "poplatky" q 10 2) ++
  lenErrs "id_transakce" t.id_transakce 100 ++
  lenErrs "nazev_merchanta" t.nazev_merchanta 200 ++
  lenErrs "mesto" t.mesto 100 ++
  reqStrErrs "mena" t.mena 10 ++
  lenErrs "banka_protiuctu" t.banka_protiuctu 100 ++
  lenErrs "reference" t.reference 100 ++
  (if t.status ∈ ["importovano", "zpracovano", "schvaleno", "upraveno", "chyba"] then []
   else [("status", "choice")]) ++
  (if t.prijem_vydaj ∈ ["", "P", "V"] then [] else [("prijem_vydaj", "choice")]) ++
  (if t.vlastni_nevlastni ∈ ["V", "N", "-"] then [] else [("vlastni_nevlastni", "choice")]) ++
  lenErrs "druh" t.druh 50 ++
  lenErrs "detail" t.detail 200 ++
  (if t.kmen ∈ ["", "MH", "SK", "XP", "FR"] then [] else [("kmen", "choice")]) ++
  pctFieldErrs "mh_pct" t.mh_pct ++
  pctFieldErrs "sk_pct" t.sk_pct ++
  pctFieldErrs "xp_pct" t.xp_pct ++
  pctFieldErrs "fr_pct" t.fr_pct

/-- `Transaction.clean`, KMEN percentage block: the four allocations must sum
to exactly 0 or exactly 100. -/
def pctSumErrors (t : Transaction) : List (String × String) :=
  let total := pyDecAdd (pyDecAdd (pyDecAdd t.mh_pct t.sk_pct) t.xp_pct) t.fr_pct
  if ¬ pyDecEq total (pyDecOfInt 0) ∧ ¬ pyDecEq total (pyDecOfInt 100) then
    [("mh_pct", "Soucet KMEN % musi byt presne 100%")]
  else []

/-- `Transaction.clean`, amount/flag consistency block. -/
def pvSignErrors (t : Transaction) : List (String × String) :=
  match t.castka with
  | none => []
  | some c =>
    if c.coeff ≠ 0 then
      if pyDecLt (pyDecOfInt 0) c ∧ t.prijem_vydaj = "V" then
        [("prijem_vydaj", "Kladna castka nemuze byt oznacena jako Vydaj")]
      else if pyDecLt c (pyDecOfInt 0) ∧ t.prijem_vydaj = "P" then
        [("prijem_vydaj", "Zaporna castka nemuze byt oznacena jako Prijem")]
      else []
    else []

/-- `Transaction.clean`, subgroup/product consistency block. -/
def podskupinaErrors (t : Transaction) : List (String × String) :=
  match t.podskupina, t.produkt_id with
  | some p, some prod =>
    if p.product_id ≠ prod then
      [("podskupina", "Vybrana podskupina nepatri k vybranemu produktu")]
    else []
  | _, _ => []

/-- `Transaction.clean`: the collected error dictionary. -/
def cleanErrors (t : Transaction) : List (String × String) :=
  pctSumErrors t ++ pvSignErrors t ++ podskupinaErrors t

/-- `Transaction.full_clean` without the store-dependent uniqueness check. -/
def modelValidationErrors (t : Transaction) : List (String × String) :=
  cleanFieldsErrors t ++ cleanErrors t

/-- `Transaction.save` runs `full_clean`; the save is accepted exactly when no
validation error is raised. -/
def validationOk (t : Transaction) : Bool :=
  modelValidationErrors t = []

/-! ## Rule engine: matching, application, cache -/

/-- The regex collaborator: `re.search(pattern, text, flags)` where the flag
argument records `case_sensitive`.  A malformed pattern is a non-match inside
the oracle, as in `_rule_matches`. -/
def RegexOracle : Type := String → String → Bool → Bool

/-- `TransactionImporter._rule_matches`. -/
def ruleMatches (re : RegexOracle) (rule : CategoryRule) (searchValue : String) : Bool :=
  let pattern := if rule.case_sensitive then rule.match_value else pyLower rule.match_value
  let target := if rule.case_sensitive then searchValue else pyLower searchValue
  match rule.match_mode with
  | .exact => pattern = target
  | .contains => pyInStr pattern target
  | .regex => re rule.match_value searchValue rule.case_sensitive

/-- `TransactionImporter._find_matching_rule`: first match in cache order. -/
def findMatchingRule (re : RegexOracle) (rules : List CategoryRule)
    (searchValue : String) : Option CategoryRule :=
  rules.find? (fun r => ruleMatches re r searchValue)

/-- `TransactionImporter._apply_rule_to_transaction`: each populated `set_*`
target overwrites its transaction field; unset targets leave it unchanged. -/
def applyRuleToTransaction (r : CategoryRule) (t : Transaction) : Transaction :=
  { t with
    prijem_vydaj := if r.set_prijem_vydaj ≠ "" then r.set_prijem_vydaj else t.prijem_vydaj
    vlastni_nevlastni :=
      if r.set_vlastni_nevlastni ≠ "" then r.set_vlastni_nevlastni else t.vlastni_nevlastni
    dane := match r.set_dane with | some b => b | none => t.dane
    druh := if r.set_druh ≠ "" then r.set_druh else t.druh
    detail := if r.set_detail ≠ "" then r.set_detail else t.detail
    kmen := if r.set_kmen ≠ "" then r.set_kmen else t.kmen
    mh_pct := match r.set_mh_pct with | some q => q | none => t.mh_pct
    sk_pct := match r.set_sk_pct with | some q => q | none => t.sk_pct
    xp_pct := match r.set_xp_pct with | some q => q | none => t.xp_pct
    fr_pct := match r.set_fr_pct with | some q => q | none => t.fr_pct
    projekt_id := match r.set_projekt_id with
      | some s => if s ≠ "" then some s else t.projekt_id
      | none => t.projekt_id
    produkt_id := match r.set_produkt_id with
      | some s => if s ≠ "" then some s else t.produkt_id
      | none => t.produkt_id
    podskupina := match r.set_podskupina with
      | some p => if p.id ≠ "" then some p else t.podskupina
      | none => t.podskupina }

/-- The per-run rule cache, partitioned by match dimension. -/
structure RulesCache where
  protiucet : List CategoryRule := []
  merchant : List CategoryRule := []
  keyword : List CategoryRule := []
deriving DecidableEq

/-- `if matched_rule: self._apply_rule_to_transaction(matched_rule, ...)`. -/
def applyMatched (o : Option CategoryRule) (t : Transaction) : Transaction :=
  match o with
  | some r => applyRuleToTransaction r t
  | none => t

/-- `TransactionImporter.apply_autodetection_rules`: three-tier cascade,
short-circuiting at the first matching rule. -/
def applyAutodetectionRules (re : RegexOracle) (cache : RulesCache)
    (t : Transaction) : Transaction :=
  let m1 : Option CategoryRule :=
    if t.cislo_protiuctu ≠ "" then findMatchingRule re cache.protiucet t.cislo_protiuctu
    else none
  let m2 : Option CategoryRule :=
    match m1 with
    | some r => some r
    | none =>
      if t.nazev_merchanta ≠ "" then findMatchingRule re cache.merchant t.nazev_merchanta
      else none
  let m3 : Option CategoryRule :=
    match m2 with
    | some r => some r
    | none =>
      let searchText := String.intercalate " "
        ([t.poznamka_zprava, t.vlastni_poznamka, t.nazev_protiuctu].filter (fun s => s ≠ ""))
      if searchText ≠ "" then findMatchingRule re cache.keyword searchText
      else none
  applyMatched m3 t

/-! ## `_load_caches`: query order and partition into buckets -/

/-- Sort key of `order_by("match_type", ...)`: the stored strings compare as
`"keyword" < "merchant" < "protiucet"`, encoded as numerals. -/
def mtKey : MatchType → Nat
  | .keyword => 0
  | .merchant => 1
  | .protiucet => 2

/-- The comparison realised by `order_by("match_type", "priority")`. -/
def ruleLeB (a b : CategoryRule) : Bool :=
  decide (mtKey a.match_type < mtKey b.match_type ∨
    (mtKey a.match_type = mtKey b.match_type ∧ a.priority ≤ b.priority))

/-- Priority-only comparison (the induced order inside one bucket). -/
def prioLeB (a b : CategoryRule) : Bool :=
  decide (a.priority ≤ b.priority)

/-- Stable insertion into a sorted list. -/
def insertS (le : CategoryRule → CategoryRule → Bool) (x : CategoryRule) :
    List CategoryRule → List CategoryRule
  | [] => [x]
  | y :: ys => if le x y then x :: y :: ys else y :: insertS le x ys

/-- Stable insertion sort: the realisation of the database `ORDER BY` (SQL
guarantees only the requested ordering; ties keep the source order here). -/
def sortS (le : CategoryRule → CategoryRule → Bool) :
    List CategoryRule → List CategoryRule
  | [] => []
  | x :: xs => insertS le x (sortS le xs)

/-- `TransactionImporter._load_caches`: active rules ordered by
`(match_type, priority)` and appended, in order, into the bucket of their
match dimension (appending in iteration order equals filtering). -/
def loadCaches (db : List CategoryRule) : RulesCache :=
  let sorted := sortS ruleLeB (db.filter (fun r => r.is_active))
  { protiucet := sorted.filter (fun r => decide (r.match_type = .protiucet))
    merchant := sorted.filter (fun r => decide (r.match_type = .merchant))
    keyword := sorted.filter (fun r => decide (r.match_type = .keyword)) }

/-! ## Format detection and the Creditas dialect parser -/

def creditasSignatureHeaders : List String := ["Typ účtu", "IBAN", "BIC"]

def raiffeisenSignatureHeaders : List String :=
  ["Datum provedení", "Zaúčtovaná částka", "Název obchodníka"]

/-- `TransactionImporter.detect_csv_format`. -/
def detectCsvFormat (headers : List String) : String :=
  if creditasSignatureHeaders.all (fun h => headers.contains h) then "creditas"
  else if raiffeisenSignatureHeaders.any (fun h => headers.contains h) then "raiffeisen"
  else "generic"

/-- `CREDITAS_CSV_MAPPING`. -/
def creditasCsvMapping : List (String × String) :=
  [("Můj účet", "_ucet"),
   ("Můj účet-banka", "_ucet_banka"),
   ("Název mého účtu", "_skip"),
   ("Datum zaúčtování", "datum_zauctovani"),
   ("Datum provedení", "datum"),
   ("Protiúčet", "_protiucet"),
   ("Protiúčet-banka", "_protiucet_banka"),
   ("Název protiúčtu", "nazev_protiuctu"),
   ("Kód transakce", "typ"),
   ("VS", "variabilni_symbol"),
   ("SS", "specificky_symbol"),
   ("KS", "konstantni_symbol"),
   ("E2E", "reference"),
   ("Zpráva pro protistranu", "poznamka_zprava"),
   ("Poznámka", "vlastni_poznamka"),
   ("Platba/Vklad", "_skip"),
   ("Částka", "castka"),
   ("Měna", "mena"),
   ("Kategorie", "_skip")]

/-- Scan the first rows (window of 10) for the Creditas transaction-header
row; return it with the remaining data rows. -/
def findCreditasHeader : Nat → List (List String) → Option (List String × List (List String))
  | _, [] => none
  | 0, _ => none
  | Nat.succ n, row :: rest =>
    if row.contains "Částka" ∧ row.contains "Protiúčet" ∧ row.contains "Platba/Vklad" then
      some (row, rest)
    else findCreditasHeader n rest

/-- Per-row header mapping of `_parse_creditas_csv`: mapped fields and the
underscore-staged `internal` fields, values stripped. -/
def creditasRowStage (headers row : List String) : Row × Row :=
  (headers.zip row).foldl
    (fun (acc : Row × Row) (hv : String × String) =>
      let value := pyStrip hv.2
      match (creditasCsvMapping.find? (fun e => e.1 = hv.1)).map (fun e => e.2) with
      | none => acc
      | some mf =>
        if mf = "_skip" then acc
        else if mf.data.head? = some '_' then (acc.1, dset acc.2 mf value)
        else (dset acc.1 mf value, acc.2))
    ([], [])

/-- Post-processing block of `_parse_creditas_csv`: join account halves and
apply the booking-date fallback. -/
def creditasPostProcess (mapped internal : Row) : Row :=
  let ucet := (dget internal "_ucet").getD ""
  let ucetBanka := (dget internal "_ucet_banka").getD ""
  let m1 := dset mapped "ucet"
    (if ucet ≠ "" ∧ ucetBanka ≠ "" then ucet ++ "/" ++ ucetBanka else ucet)
  let protiucet := (dget internal "_protiucet").getD ""
  let protiucetBanka := (dget internal "_protiucet_banka").getD ""
  let m2 :=
    if protiucet ≠ "" then
      dset m1 "cislo_protiuctu"
        (if protiucetBanka ≠ "" then protiucet ++ "/" ++ protiucetBanka else protiucet)
    else m1
  let m3 := if protiucetBanka ≠ "" then dset m2 "banka_protiuctu" protiucetBanka else m2
  if (dget m3 "datum").getD "" = "" ∧ (dget m3 "datum_zauctovani").getD "" ≠ "" then
    dset m3 "datum" ((dget m3 "datum_zauctovani").getD "")
  else m3

/-- `TransactionImporter._parse_creditas_csv`. -/
def parseCreditasCsv (allRows : List (List String)) : Except String (List Row) :=
  match findCreditasHeader 10 allRows with
  | none => .error "Nelze najít řádek s hlavičkami transakcí v CSV souboru Creditas"
  | some (headers, dataRows) =>
    .ok (dataRows.foldl
      (fun acc row =>
        if row.all (fun cell => pyStrip cell = "") then acc
        else
          let staged := creditasRowStage headers row
          let processed := creditasPostProcess staged.1 staged.2
          if processed ≠ [] then acc ++ [processed] else acc)
      [])

/-! ## The per-row import pipeline (`_process_row`, `import_csv` loop) -/

/-- Typed value of a converted CSV cell. -/
inductive FieldVal where
  | str (s : String)
  | dec (q : PyDec)
  | date (d : PDate)
deriving DecidableEq

/-- Field classification of `_convert_row_data`. -/
def convertValue (f sv : String) : Except String FieldVal :=
  if f = "datum" ∨ f = "datum_zauctovani" then (pyParseDateE sv).map FieldVal.date
  else if f = "castka" ∨ f = "puvodni_castka" ∨ f = "poplatky" then
    (pyParseDecimalE sv).map FieldVal.dec
  else .ok (FieldVal.str sv)

/-- `TransactionImporter._convert_row_data`: skip blank values, strip, convert
dates and decimals, first conversion failure aborts the row. -/
def convertRowData : Row → Except String (List (String × FieldVal))
  | [] => .ok []
  | (f, v) :: rest =>
    if pyStrip v = "" then convertRowData rest
    else
      match convertValue f (pyStrip v) with
      | .error e => .error e
      | .ok val =>
        match convertRowData rest with
        | .error e => .error e
        | .ok l => .ok ((f, val) :: l)

/-- First binding of a key in the converted row (keys are unique, coming
from a Python `dict`). -/
def lookupV (l : List (String × FieldVal)) (k : String) : Option FieldVal :=
  (l.find? (fun e => e.1 = k)).map (fun e => e.2)

def getStr (l : List (String × FieldVal)) (k : String) (d : String) : String :=
  match lookupV l k with
  | some (.str s) => s
  | _ => d

def getDec (l : List (String × FieldVal)) (k : String) : Option PyDec :=
  match lookupV l k with
  | some (.dec q) => some q
  | _ => none

def getDate (l : List (String × FieldVal)) (k : String) : Option PDate :=
  match lookupV l k with
  | some (.date d) => some d
  | _ => none

/-- `Transaction(**transaction_data)`: each bank column takes the converted
value bound to its keyword when present, the model default otherwise
(converted rows bind each key at most once). -/
def buildTransaction (l : List (String × FieldVal)) : Transaction :=
  { datum := getDate l "datum"
    ucet := getStr l "ucet" ""
    typ := getStr l "typ" ""
    poznamka_zprava := getStr l "poznamka_zprava" ""
    variabilni_symbol := getStr l "variabilni_symbol" ""
    castka := getDec l "castka"
    datum_zauctovani := getDate l "datum_zauctovani"
    cislo_protiuctu := getStr l "cislo_protiuctu" ""
    nazev_protiuctu := getStr l "nazev_protiuctu" ""
    typ_transakce := getStr l "typ_transakce" ""
    konstantni_symbol := getStr l "konstantni_symbol" ""
    specificky_symbol := getStr l "specificky_symbol" ""
    puvodni_castka := getDec l "puvodni_castka"
    puvodni_mena := getStr l "puvodni_mena" ""
    poplatky := getDec l "poplatky"
    id_transakce := getStr l "id_transakce" ""
    vlastni_poznamka := getStr l "vlastni_poznamka" ""
    nazev_merchanta := getStr l "nazev_merchanta" ""
    mesto := getStr l "mesto" ""
    mena := getStr l "mena" "CZK"
    banka_protiuctu := getStr l "banka_protiuctu" ""
    reference := getStr l "reference" "" }

/-- The store of persisted transactions, reduced to their external IDs
(the only column the import pipeline queries). -/
abbrev Store : Type := List String

/-- Result of a single row import attempt (`ImportResult`). -/
structure ImportResult where
  success : Bool
  row_number : Nat
  error_message : Option String := none
deriving DecidableEq

/-- `validate_unique`: the partial unique constraint on `id_transakce`. -/
def uniqueErrors (store : Store) (t : Transaction) : List (String × String) :=
  if t.id_transakce ≠ "" ∧ t.id_transakce ∈ store then
    [("id_transakce", "Transaction with this Id transakce already exists.")]
  else []

/-- Rendering of a `ValidationError` dictionary as `str(e)`. -/
def renderErrors (l : List (String × String)) : String :=
  String.intercalate "; " (l.map (fun e => e.1 ++ ": " ++ e.2))

/-- The external transaction ID of a row, as read by the duplicate pre-check. -/
def rowId (row : Row) : String :=
  pyStrip ((dget row "id_transakce").getD "")

/-- Auto-derivation of the income/expense flag from the amount sign, applied
by `_process_row` when no rule set the flag. -/
def derivePv (t : Transaction) : Transaction :=
  if t.prijem_vydaj = "" ∧ decTruthy t.castka then
    { t with prijem_vydaj :=
      if pyDecLt (pyDecOfInt 0) (t.castka.getD (pyDecOfInt 0)) then "P" else "V" }
  else t

/-- `TransactionImporter._process_row`: duplicate pre-check, conversion,
construction, rule cascade, flag derivation, validated save. -/
def processRow (re : RegexOracle) (cache : RulesCache) (store : Store) (n : Nat)
    (row : Row) : ImportResult × Store :=
  let idt := rowId row
  if idt ≠ "" ∧ idt ∈ store then
    ({ success := false, row_number := n,
       error_message := some ("Duplicate transaction ID: " ++ idt) }, store)
  else
    match convertRowData row with
    | .error e => ({ success := false, row_number := n, error_message := some e }, store)
    | .ok conv =>
      let t := derivePv (applyAutodetectionRules re cache (buildTransaction conv))
      let errs := modelValidationErrors t ++ uniqueErrors store t
      if errs ≠ [] then
        ({ success := false, row_number := n, error_message := some (renderErrors errs) },
          store)
      else
        ({ success := true, row_number := n, error_message := none },
          store ++ [t.id_transakce])

/-- The row loop of `import_csv`, numbering rows from 1. -/
def runRows (re : RegexOracle) (cache : RulesCache) :
    Store → Nat → List Row → List ImportResult × Store
  | store, _, [] => ([], store)
  | store, n, row :: rest =>
    let step := processRow re cache store n row
    let tail := runRows re cache step.2 (n + 1) rest
    (step.1 :: tail.1, tail.2)

/-- Duplicate detection in the summary: `"duplicate" in (msg or "").lower()`. -/
def msgIsDuplicate (msg : Option String) : Bool :=
  pyInStr "duplicate" (pyLower (msg.getD ""))

/-- `ImportSummary` (batch id and wall-clock duration omitted). -/
structure ImportSummary where
  total_rows : Nat
  imported : Nat
  skipped : Nat
  errors : Nat
  error_details : List (Nat × Option String)
deriving DecidableEq

/-- Summary computation at the end of `import_csv`. -/
def summarize (totalRows : Nat) (results : List ImportResult) : ImportSummary :=
  { total_rows := totalRows
    imported := (results.filter (fun r => r.success)).length
    skipped := (results.filter (fun r => !r.success && msgIsDuplicate r.error_message)).length
    errors := (results.filter (fun r => !r.success && !msgIsDuplicate r.error_message)).length
    error_details := (results.filter (fun r => !r.success)).map
      (fun r => (r.row_number, r.error_message)) }

/-- `TransactionImporter.import_csv` on already-parsed rows: run the loop and
summarize, returning the updated store. -/
def importCsvModel (re : RegexOracle) (cache : RulesCache) (store : Store)
    (rows : List Row) : ImportSummary × Store :=
  let run := runRows re cache store 1 rows
  (summarize rows.length run.1, run.2)

/-! ## Decidability of `Except` results -/

instance {ε α : Type} [DecidableEq ε] [DecidableEq α] : DecidableEq (Except ε α)
  | .ok a, .ok b => if h : a = b then .isTrue (by rw [h]) else .isFalse (by simp [h])
  | .ok _, .error _ => .isFalse (by simp)
  | .error _, .ok _ => .isFalse (by simp)
  | .error e, .error f =>
    if h : e = f then .isTrue (by rw [h]) else .isFalse (by simp [h])

/-! ## Helper lemmas -/

theorem pyDecLt_zero_coeff_pos {c : PyDec} (h : pyDecLt (pyDecOfInt 0) c = true) :
    0 < c.coeff := by
  unfold pyDecLt pyDecAligned pyDecOfInt at h
  simp only [decide_eq_true_eq] at h
  set k := (c.exp - min (0 : Int) c.exp).toNat with hk
  have hq : (0 : ℤ) < ((10 : ℕ) ^ k : ℕ) := by positivity
  have h' : (0 : ℤ) < c.coeff * ((10 : ℕ) ^ k : ℕ) := by simpa using h
  by_contra hle
  push_neg at hle
  nlinarith

theorem pyDecLt_zero_coeff_neg {c : PyDec} (h : pyDecLt c (pyDecOfInt 0) = true) :
    c.coeff < 0 := by
  unfold pyDecLt pyDecAligned pyDecOfInt at h
  simp only [decide_eq_true_eq] at h
  set k := (c.exp - min c.exp (0 : Int)).toNat with hk
  have hq : (0 : ℤ) < ((10 : ℕ) ^ k : ℕ) := by positivity
  have h' : c.coeff * ((10 : ℕ) ^ k : ℕ) < 0 := by simpa using h
  by_contra hle
  push_neg at hle
  nlinarith

/-! ## C1, C2: model-validation claims -/

/-- C1: for a transaction candidate whose non-percentage validations all pass
(per-field validators, sign/flag consistency, subgroup consistency), the
validated save is accepted exactly when the four organizational-unit
percentages sum to exactly 0 or exactly 100. -/
theorem transaction_pct_sum_validation (t : Transaction)
    (hf : cleanFieldsErrors t = []) (hpv : pvSignErrors t = [])
    (hpod : podskupinaErrors t = []) :
    validationOk t = true ↔
      (pyDecEq (pyDecAdd (pyDecAdd (pyDecAdd t.mh_pct t.sk_pct) t.xp_pct) t.fr_pct)
          (pyDecOfInt 0) = true ∨
       pyDecEq (pyDecAdd (pyDecAdd (pyDecAdd t.mh_pct t.sk_pct) t.xp_pct) t.fr_pct)
          (pyDecOfInt 100) = true) := by
  unfold validationOk modelValidationErrors cleanErrors
  rw [hf, hpv, hpod]
  simp only [List.append_nil, List.nil_append, pctSumErrors]
  split_ifs with h
  · simp only [decide_eq_true_eq]
    constructor
    · intro hx
      exact absurd hx (by simp)
    · intro hx
      rcases hx with hx | hx
      · exact absurd hx h.1
      · exact absurd hx h.2
  · simp only [decide_eq_true_eq]
    constructor
    · intro _
      by_contra hx
      push_neg at hx
      exact h ⟨fun hz => hx.1 hz, fun hz => hx.2 hz⟩
    · intro _
      trivial

/-- C1 witness: a fully valid candidate with a 25/25/25/25 split is accepted. -/
theorem transaction_pct_sum_validation_witness :
    validationOk
      { datum := some ⟨2025, 1, 1⟩, ucet := "1", typ := "T", castka := some ⟨500, -2⟩,
        mh_pct := ⟨25, 0⟩, sk_pct := ⟨25, 0⟩, xp_pct := ⟨25, 0⟩,
        fr_pct := ⟨25, 0⟩ } = true :=
  (transaction_pct_sum_validation _ (by decide) (by decide) (by decide)).mpr
    (Or.inr (by decide))

/-- C2: model validation rejects a positive amount flagged as expense and a
negative amount flagged as income. -/
theorem transaction_sign_flag_validation (t : Transaction) (c : PyDec)
    (hc : t.castka = some c)
    (h : (pyDecLt (pyDecOfInt 0) c = true ∧ t.prijem_vydaj = "V") ∨
         (pyDecLt c (pyDecOfInt 0) = true ∧ t.prijem_vydaj = "P")) :
    validationOk t = false := by
  have hne : pvSignErrors t ≠ [] := by
    unfold pvSignErrors
    rw [hc]
    dsimp only
    rcases h with ⟨hlt, hpv⟩ | ⟨hlt, hpv⟩
    · have hco : c.coeff ≠ 0 := ne_of_gt (pyDecLt_zero_coeff_pos hlt)
      rw [if_pos hco, if_pos ⟨hlt, hpv⟩]
      simp
    · have hco : c.coeff ≠ 0 := ne_of_lt (pyDecLt_zero_coeff_neg hlt)
      rw [if_pos hco]
      have hnot : ¬ (pyDecLt (pyDecOfInt 0) c = true ∧ t.prijem_vydaj = "V") := by
        rintro ⟨hlt2, _⟩
        have h1 := pyDecLt_zero_coeff_pos hlt2
        have h2 := pyDecLt_zero_coeff_neg hlt
        omega
      rw [if_neg hnot, if_pos ⟨hlt, hpv⟩]
      simp
  simp only [validationOk, modelValidationErrors, cleanErrors, decide_eq_false_iff_not]
  intro heq
  rw [List.append_eq_nil] at heq
  rcases heq with ⟨_, heq⟩
  rw [List.append_eq_nil] at heq
  rcases heq with ⟨heq, _⟩
  rw [List.append_eq_nil] at heq
  exact hne heq.2

/-- C2 witness: a positive amount flagged as expense is rejected. -/
theorem transaction_sign_flag_validation_witness :
    validationOk
      { datum := some ⟨2025, 1, 1⟩, ucet := "1", typ := "T", castka := some ⟨500, -2⟩,
        prijem_vydaj := "V" } = false :=
  transaction_sign_flag_validation _ ⟨500, -2⟩ rfl (Or.inl ⟨by decide, rfl⟩)

/-! ## C6, C7: decimal converter and format detection -/

/-- C6: the decimal parser strips spaces and non-breaking spaces and turns
the decimal comma into a period, so `"22 500,00"` is exactly
`Decimal("22500.00")` and `"-1 234,50"` exactly `Decimal("-1234.50")` (the
second example uses a non-breaking-space separator); every string that still
fails to parse raises a `ValueError` naming the offending literal — the
result is never silently zero. -/
theorem parse_decimal_examples_and_errors :
    pyParseDecimalE "22 500,00" = .ok ⟨2250000, -2⟩ ∧
    pyDecEq ⟨2250000, -2⟩ (pyDecOfInt 22500) = true ∧
    pyParseDecimalE "-1 234,50" = .ok ⟨-123450, -2⟩ ∧
    pyParseDecimalE "-1 234,50" = .ok ⟨-123450, -2⟩ ∧
    (∀ s : String, (∃ q, pyParseDecimalE s = .ok q) ∨
      pyParseDecimalE s = .error ("Unable to parse decimal: " ++ s)) := by
  refine ⟨by decide, by decide, by decide, by decide, ?_⟩
  intro s
  unfold pyParseDecimalE
  cases pyDecimal ⟨cleanDecimalChars s.data⟩ with
  | some q => exact Or.inl ⟨q, rfl⟩
  | none => exact Or.inr rfl

/-- C7: format detection returns the Creditas dialect exactly when the three
signature headers are all present, otherwise Raiffeisen exactly when some
Raiffeisen signature header is present, otherwise the generic dialect; the
Creditas check is evaluated first and detection is total. -/
theorem detect_csv_format_spec (headers : List String) :
    (detectCsvFormat headers = "creditas" ↔
      ∀ h ∈ creditasSignatureHeaders, headers.contains h = true) ∧
    (detectCsvFormat headers = "raiffeisen" ↔
      (¬ ∀ h ∈ creditasSignatureHeaders, headers.contains h = true) ∧
      ∃ h ∈ raiffeisenSignatureHeaders, headers.contains h = true) ∧
    (detectCsvFormat headers = "generic" ↔
      (¬ ∀ h ∈ creditasSignatureHeaders, headers.contains h = true) ∧
      ¬ ∃ h ∈ raiffeisenSignatureHeaders, headers.contains h = true) := by
  unfold detectCsvFormat
  split_ifs with h1 h2 <;>
    simp_all [List.all_eq_true, List.any_eq_true]

/-! ## C5: date parser order and examples -/

/-- C5: the date parser tries the patterns datetime-with-minutes, Czech
date-only, slash-separated, ISO date, ISO datetime in that fixed order and
returns the date component of the first pattern that parses, raising an
error when none matches; in particular `"16.08.2025 05:42"` parses to
2025-08-16 with the time discarded, `"14.08.2025"` to 2025-08-14 and
`"2025-08-14"` to 2025-08-14. -/
theorem parse_date_order_and_examples :
    pyParseDate "16.08.2025 05:42" = some ⟨2025, 8, 16⟩ ∧
    pyParseDate "14.08.2025" = some ⟨2025, 8, 14⟩ ∧
    pyParseDate "2025-08-14" = some ⟨2025, 8, 14⟩ ∧
    (∀ s : String, pyParseDate s =
      (csvDateFormats.findSome? (fun f => f (pyStrip s).data)).map (fun dt => dt.date)) ∧
    (∀ s : String, csvDateFormats.all (fun f => (f (pyStrip s).data).isNone) = true →
      pyParseDateE s = .error ("Unable to parse date: " ++ s)) := by
  refine ⟨by decide, by decide, by decide, ?_, ?_⟩
  · intro s
    unfold pyParseDate csvDateFormats
    cases h1 : fmtDMYHM (pyStrip s).data with
    | some d => simp [List.findSome?, h1]
    | none =>
      cases h2 : fmtDMY (pyStrip s).data with
      | some d => simp [List.findSome?, h1, h2]
      | none =>
        cases h3 : fmtDMYSlash (pyStrip s).data with
        | some d => simp [List.findSome?, h1, h2, h3]
        | none =>
          cases h4 : fmtYMD (pyStrip s).data with
          | some d => simp [List.findSome?, h1, h2, h3, h4]
          | none =>
            cases h5 : fmtYMDHMS (pyStrip s).data with
            | some d => simp [List.findSome?, h1, h2, h3, h4, h5]
            | none => simp [List.findSome?, h1, h2, h3, h4, h5]
  · intro s hall
    rw [List.all_eq_true] at hall
    have e1 := hall fmtDMYHM (by unfold csvDateFormats; simp)
    have e2 := hall fmtDMY (by unfold csvDateFormats; simp)
    have e3 := hall fmtDMYSlash (by unfold csvDateFormats; simp)
    have e4 := hall fmtYMD (by unfold csvDateFormats; simp)
    have e5 := hall fmtYMDHMS (by unfold csvDateFormats; simp)
    rw [Option.isNone_iff_eq_none] at e1 e2 e3 e4 e5
    unfold pyParseDateE pyParseDate
    rw [e1, e2, e3, e4, e5]
    rfl

/-- C5 witness: an unparseable literal raises naming the literal. -/
theorem parse_date_order_and_examples_witness :
    pyParseDateE "never-a-date" = .error "Unable to parse date: never-a-date" :=
  parse_date_order_and_examples.2.2.2.2 "never-a-date" (by decide)

/-! ## C3: counterparty-account rule precedence -/

theorem find?_first {α : Type} (p : α → Bool) (l1 l2 : List α) (r : α)
    (hb : ∀ x ∈ l1, p x = false) (hr : p r = true) :
    (l1 ++ r :: l2).find? p = some r := by
  induction l1 with
  | nil => simp [List.find?_cons, hr]
  | cons a as ih =>
    have ha : p a = false := hb a (by simp)
    simp only [List.cons_append, List.find?_cons, ha]
    exact ih (fun x hx => hb x (by simp [hx]))

/-- C3: when the counterparty account is non-empty and some counterparty-
account rule matches, the cascade applies exactly the first matching
counterparty-account rule in cache order; the merchant and keyword buckets
are never consulted; only the populated `set_*` fields of that rule
overwrite the transaction, every other field staying unchanged. -/
theorem autodetect_protiucet_precedence (re : RegexOracle) (cache : RulesCache)
    (t : Transaction) (l1 l2 : List CategoryRule) (r : CategoryRule)
    (hacct : t.cislo_protiuctu ≠ "")
    (hsplit : cache.protiucet = l1 ++ r :: l2)
    (hbefore : ∀ x ∈ l1, ruleMatches re x t.cislo_protiuctu = false)
    (hr : ruleMatches re r t.cislo_protiuctu = true) :
    applyAutodetectionRules re cache t = applyRuleToTransaction r t ∧
    (∀ mb kb : List CategoryRule,
      applyAutodetectionRules re ⟨cache.protiucet, mb, kb⟩ t = applyRuleToTransaction r t) ∧
    (r.set_prijem_vydaj = "" →
      (applyRuleToTransaction r t).prijem_vydaj = t.prijem_vydaj) ∧
    (r.set_prijem_vydaj ≠ "" →
      (applyRuleToTransaction r t).prijem_vydaj = r.set_prijem_vydaj) ∧
    (r.set_vlastni_nevlastni = "" →
      (applyRuleToTransaction r t).vlastni_nevlastni = t.vlastni_nevlastni) ∧
    (r.set_vlastni_nevlastni ≠ "" →
      (applyRuleToTransaction r t).vlastni_nevlastni = r.set_vlastni_nevlastni) ∧
    (r.set_dane = none → (applyRuleToTransaction r t).dane = t.dane) ∧
    (∀ b, r.set_dane = some b → (applyRuleToTransaction r t).dane = b) ∧
    (r.set_druh = "" → (applyRuleToTransaction r t).druh = t.druh) ∧
    (r.set_druh ≠ "" → (applyRuleToTransaction r t).druh = r.set_druh) ∧
    (r.set_detail = "" → (applyRuleToTransaction r t).detail = t.detail) ∧
    (r.set_detail ≠ "" → (applyRuleToTransaction r t).detail = r.set_detail) ∧
    (r.set_kmen = "" → (applyRuleToTransaction r t).kmen = t.kmen) ∧
    (r.set_kmen ≠ "" → (applyRuleToTransaction r t).kmen = r.set_kmen) ∧
    (r.set_mh_pct = none → (applyRuleToTransaction r t).mh_pct = t.mh_pct) ∧
    (∀ q, r.set_mh_pct = some q → (applyRuleToTransaction r t).mh_pct = q) ∧
    (r.set_sk_pct = none → (applyRuleToTransaction r t).sk_pct = t.sk_pct) ∧
    (∀ q, r.set_sk_pct = some q → (applyRuleToTransaction r t).sk_pct = q) ∧
    (r.set_xp_pct = none → (applyRuleToTransaction r t).xp_pct = t.xp_pct) ∧
    (∀ q, r.set_xp_pct = some q → (applyRuleToTransaction r t).xp_pct = q) ∧
    (r.set_fr_pct = none → (applyRuleToTransaction r t).fr_pct = t.fr_pct) ∧
    (∀ q, r.set_fr_pct = some q → (applyRuleToTransaction r t).fr_pct = q) ∧
    (r.set_projekt_id = none ∨ r.set_projekt_id = some "" →
      (applyRuleToTransaction r t).projekt_id = t.projekt_id) ∧
    (∀ s, r.set_projekt_id = some s → s ≠ "" →
      (applyRuleToTransaction r t).projekt_id = some s) ∧
    (r.set_produkt_id = none ∨ r.set_produkt_id = some "" →
      (applyRuleToTransaction r t).produkt_id = t.produkt_id) ∧
    (∀ s, r.set_produkt_id = some s → s ≠ "" →
      (applyRuleToTransaction r t).produkt_id = some s) ∧
    ((r.set_podskupina = none ∨ (∃ p, r.set_podskupina = some p ∧ p.id = "")) →
      (applyRuleToTransaction r t).podskupina = t.podskupina) ∧
    (∀ p, r.set_podskupina = some p → p.id ≠ "" →
      (applyRuleToTransaction r t).podskupina = some p) := by
  have hfind : findMatchingRule re cache.protiucet t.cislo_protiuctu = some r := by
    rw [hsplit]
    exact find?_first _ l1 l2 r hbefore hr
  refine ⟨?_, ?_, ?_⟩
  · simp [applyAutodetectionRules, applyMatched, hacct, hfind]
  · intro mb kb
    simp [applyAutodetectionRules, applyMatched, hacct, hfind]
  refine ⟨fun h => by simp [applyRuleToTransaction, h],
    fun h => by simp [applyRuleToTransaction, h],
    fun h => by simp [applyRuleToTransaction, h],
    fun h => by simp [applyRuleToTransaction, h],
    fun h => by simp [applyRuleToTransaction, h],
    fun b h => by simp [applyRuleToTransaction, h],
    fun h => by simp [applyRuleToTransaction, h],
    fun h => by simp [applyRuleToTransaction, h],
    fun h => by simp [applyRuleToTransaction, h],
    fun h => by simp [applyRuleToTransaction, h],
    fun h => by simp [applyRuleToTransaction, h],
    fun h => by simp [applyRuleToTransaction, h],
    fun h => by simp [applyRuleToTransaction, h],
    fun q h => by simp [applyRuleToTransaction, h],
    fun h => by simp [applyRuleToTransaction, h],
    fun q h => by simp [applyRuleToTransaction, h],
    fun h => by simp [applyRuleToTransaction, h],
    fun q h => by simp [applyRuleToTransaction, h],
    fun h => by simp [applyRuleToTransaction, h],
    fun q h => by simp [applyRuleToTransaction, h],
    fun h => by rcases h with h | h <;> simp [applyRuleToTransaction, h],
    fun s h hne => by simp [applyRuleToTransaction, h, hne],
    fun h => by rcases h with h | h <;> simp [applyRuleToTransaction, h],
    fun s h hne => by simp [applyRuleToTransaction, h, hne],
    fun h => by
      rcases h with h | ⟨p, hp, hpe⟩
      · simp [applyRuleToTransaction, h]
      · simp [applyRuleToTransaction, hp, hpe],
    fun p h hne => by simp [applyRuleToTransaction, h, hne]⟩

/-- Concrete rule for the C3 witness: an exact counterparty-account match. -/
def c3Rule : CategoryRule :=
  { name := "acct", match_type := .protiucet, match_mode := .exact,
    match_value := "123", priority := 1, set_druh := "fixni" }

/-- Concrete merchant rule that also matches the C3 witness transaction. -/
def c3MerchantRule : CategoryRule :=
  { name := "m", match_type := .merchant, match_mode := .exact,
    match_value := "ACME", priority := 1, set_druh := "variabilni" }

def c3Cache : RulesCache :=
  { protiucet := [c3Rule], merchant := [c3MerchantRule] }

def c3Txn : Transaction :=
  { cislo_protiuctu := "123", nazev_merchanta := "ACME" }

/-- C3 witness: with both a counterparty-account rule and a merchant rule
matching, exactly the counterparty-account rule is applied. -/
theorem autodetect_protiucet_precedence_witness :
    applyAutodetectionRules (fun _ _ _ => false) c3Cache c3Txn =
      applyRuleToTransaction c3Rule c3Txn :=
  (autodetect_protiucet_precedence (fun _ _ _ => false) c3Cache c3Txn [] [] c3Rule
    (by decide) rfl (by simp) (by decide)).1

/-! ## C9: Creditas account joining -/

theorem dget_dset_self (d : Row) (k v : String) : dget (dset d k v) k = some v := by
  induction d with
  | nil => simp [dget, dset, List.find?_cons]
  | cons e rest ih =>
    by_cases h : e.1 = k
    · simp [dset, h, dget, List.find?_cons]
    · simp only [dset]
      rw [if_neg h]
      simpa [dget, List.find?_cons, h] using ih

theorem dget_dset_ne (d : Row) (k k' v : String) (h : k' ≠ k) :
    dget (dset d k v) k' = dget d k' := by
  have h' : k ≠ k' := Ne.symm h
  induction d with
  | nil => simp [dget, dset, List.find?_cons, h']
  | cons e rest ih =>
    by_cases he : e.1 = k
    · simp only [dset]
      rw [if_pos he]
      by_cases he' : e.1 = k'
      · exact absurd (he'.symm.trans he) h
      · simp [dget, List.find?_cons, h', he, he']
    · simp only [dset]
      rw [if_neg he]
      by_cases he' : e.1 = k'
      · simp [dget, List.find?_cons, he']
      · simpa [dget, List.find?_cons, he'] using ih

/-- C9 counterexample: a Creditas row whose account-number halves are blank
while the bank-code halves are populated.  The own-account field becomes the
empty string — not the present bank-code half `"0300"` — and the
counterparty-account field is not produced at all despite the present half
`"0800"`, so absence of the number half does not fall back to the bare
present half. -/
theorem creditas_account_join_counterexample :
    (parseCreditasCsv
      [["Typ účtu", "IBAN", "BIC"], ["B", "CZ65", "CT"], [""],
       ["Můj účet", "Můj účet-banka", "Datum zaúčtování", "Protiúčet",
        "Protiúčet-banka", "Částka", "Platba/Vklad"],
       ["", "0300", "14.08.2025", "", "0800", "100", "Vklad"]]).map
        (fun rows => rows.map (fun row => (dget row "ucet", dget row "cislo_protiuctu"))) =
      .ok [(some "", none)] ∧
    ("" : String) ≠ "0300" ∧ ("0800" : String) ≠ "" := by
  refine ⟨by decide, by decide, by decide⟩

/-- C9 (amended): the own-account field is the joined `number/bankcode`
string when both halves are non-empty and otherwise falls back to the
account-number half (which may be empty); the counterparty-account field is
produced only when its number half is non-empty — joined when the bank code
is present, the bare number otherwise — and is absent when the number half
is empty. -/
theorem creditas_account_join_amended (mapped internal : Row)
    (h2 : dget mapped "cislo_protiuctu" = none) :
    dget (creditasPostProcess mapped internal) "ucet" =
      some (if (dget internal "_ucet").getD "" ≠ "" ∧
              (dget internal "_ucet_banka").getD "" ≠ "" then
          (dget internal "_ucet").getD "" ++ "/" ++ (dget internal "_ucet_banka").getD ""
        else (dget internal "_ucet").getD "") ∧
    ((dget internal "_protiucet").getD "" ≠ "" →
      dget (creditasPostProcess mapped internal) "cislo_protiuctu" =
        some (if (dget internal "_protiucet_banka").getD "" ≠ "" then
            (dget internal "_protiucet").getD "" ++ "/" ++
              (dget internal "_protiucet_banka").getD ""
          else (dget internal "_protiucet").getD "")) ∧
    ((dget internal "_protiucet").getD "" = "" →
      dget (creditasPostProcess mapped internal) "cislo_protiuctu" = none) := by
  refine ⟨?_, ?_, ?_⟩
  · simp only [creditasPostProcess]
    split_ifs <;>
      simp_all [dget_dset_self, dget_dset_ne]
  · intro hpu
    simp only [creditasPostProcess]
    split_ifs <;>
      simp_all [dget_dset_self, dget_dset_ne]
  · intro hpu
    simp only [creditasPostProcess]
    split_ifs <;>
      simp_all [dget_dset_self, dget_dset_ne]

def c9Internal : Row :=
  [("_ucet", "123"), ("_ucet_banka", "0300"),
   ("_protiucet", "9"), ("_protiucet_banka", "0800")]

/-- C9 witness: both halves present join to `number/bankcode`. -/
theorem creditas_account_join_amended_witness :
    dget (creditasPostProcess [] c9Internal) "ucet" = some "123/0300" :=
  ((creditas_account_join_amended [] c9Internal rfl).1).trans (by decide)

/-! ## C8: rule-cache partition and ordering -/

theorem mem_insertS (le : CategoryRule → CategoryRule → Bool) (x z : CategoryRule)
    (s : List CategoryRule) : z ∈ insertS le x s ↔ z = x ∨ z ∈ s := by
  induction s with
  | nil => simp [insertS]
  | cons y ys ih =>
    by_cases hxy : le x y = true
    · rw [insertS, if_pos hxy]
      simp [List.mem_cons]
    · rw [insertS, if_neg hxy]
      simp [List.mem_cons, ih]
      tauto

theorem insertS_perm (le : CategoryRule → CategoryRule → Bool) (x : CategoryRule)
    (s : List CategoryRule) : List.Perm (insertS le x s) (x :: s) := by
  induction s with
  | nil =>
    rw [insertS]
  | cons y ys ih =>
    by_cases hxy : le x y = true
    · rw [insertS, if_pos hxy]
    · rw [insertS, if_neg hxy]
      exact (List.Perm.cons y ih).trans (List.Perm.swap x y ys)

theorem sortS_perm (le : CategoryRule → CategoryRule → Bool) (l : List CategoryRule) :
    List.Perm (sortS le l) l := by
  induction l with
  | nil => rw [sortS]
  | cons x xs ih =>
    rw [sortS]
    exact (insertS_perm le x (sortS le xs)).trans (List.Perm.cons x ih)

theorem pairwise_insertS (le : CategoryRule → CategoryRule → Bool)
    (htot : ∀ a b, le a b = false → le b a = true)
    (htrans : ∀ a b c, le a b = true → le b c = true → le a c = true)
    (x : CategoryRule) (s : List CategoryRule)
    (hs : s.Pairwise (fun a b => le a b = true)) :
    (insertS le x s).Pairwise (fun a b => le a b = true) := by
  induction s with
  | nil => simp [insertS]
  | cons y ys ih =>
    rcases List.pairwise_cons.mp hs with ⟨hy, hys⟩
    by_cases hxy : le x y = true
    · rw [insertS, if_pos hxy]
      refine List.pairwise_cons.mpr ⟨?_, hs⟩
      intro z hz
      rcases List.mem_cons.mp hz with rfl | hz
      · exact hxy
      · exact htrans x y z hxy (hy z hz)
    · rw [insertS, if_neg hxy]
      refine List.pairwise_cons.mpr ⟨?_, ih hys⟩
      intro z hz
      rcases (mem_insertS le x z ys).mp hz with hzx | hz
      · rw [hzx]
        exact htot x y (Bool.eq_false_iff.mpr hxy)
      · exact hy z hz

theorem sortS_pairwise (le : CategoryRule → CategoryRule → Bool)
    (htot : ∀ a b, le a b = false → le b a = true)
    (htrans : ∀ a b c, le a b = true → le b c = true → le a c = true)
    (l : List CategoryRule) :
    (sortS le l).Pairwise (fun a b => le a b = true) := by
  induction l with
  | nil => rw [sortS]; exact List.Pairwise.nil
  | cons x xs ih =>
    rw [sortS]
    exact pairwise_insertS le htot htrans x _ ih

theorem ruleLeB_total : ∀ a b, ruleLeB a b = false → ruleLeB b a = true := by
  intro a b
  simp only [ruleLeB, decide_eq_false_iff_not, decide_eq_true_eq]
  omega

theorem ruleLeB_trans :
    ∀ a b c, ruleLeB a b = true → ruleLeB b c = true → ruleLeB a c = true := by
  intro a b c
  simp only [ruleLeB, decide_eq_true_eq]
  omega

theorem prioLeB_total : ∀ a b : CategoryRule, prioLeB a b = false → prioLeB b a = true := by
  intro a b
  simp only [prioLeB, decide_eq_false_iff_not, decide_eq_true_eq]
  omega

theorem prioLeB_trans : ∀ a b c : CategoryRule,
    prioLeB a b = true → prioLeB b c = true → prioLeB a c = true := by
  intro a b c
  simp only [prioLeB, decide_eq_true_eq]
  omega

theorem mtKey_eq_of_eq {a b : MatchType} (h : a = b) : mtKey a = mtKey b := by rw [h]

theorem ruleLeB_of_eq_type_le {a b : CategoryRule} (hmt : a.match_type = b.match_type)
    (h : ruleLeB a b = true) : a.priority ≤ b.priority := by
  have hk := mtKey_eq_of_eq hmt
  simp only [ruleLeB, decide_eq_true_eq] at h
  omega

theorem prioLeB_false_of_ruleLeB_false {a b : CategoryRule}
    (hmt : a.match_type = b.match_type) (h : ruleLeB a b = false) :
    prioLeB a b = false := by
  have hk := mtKey_eq_of_eq hmt
  simp only [ruleLeB, decide_eq_false_iff_not, decide_eq_true_eq] at h
  simp only [prioLeB, decide_eq_false_iff_not, decide_eq_true_eq]
  omega

theorem filter_insertS (c : MatchType) (x : CategoryRule) (s : List CategoryRule)
    (hs : s.Pairwise (fun a b => ruleLeB a b = true)) :
    (insertS ruleLeB x s).filter (fun r => decide (r.match_type = c)) =
      if x.match_type = c then
        insertS prioLeB x (s.filter (fun r => decide (r.match_type = c)))
      else s.filter (fun r => decide (r.match_type = c)) := by
  induction s with
  | nil =>
    by_cases hx : x.match_type = c <;>
      simp [insertS, List.filter, hx]
  | cons y ys ih =>
    rcases List.pairwise_cons.mp hs with ⟨hy, hys⟩
    by_cases hxy : ruleLeB x y = true
    · rw [insertS, if_pos hxy]
      by_cases hx : x.match_type = c
      · rw [if_pos hx]
        have hfs : ∀ z ∈ (y :: ys).filter (fun r => decide (r.match_type = c)),
            prioLeB x z = true := by
          intro z hz
          rcases List.mem_filter.mp hz with ⟨hmem, hzc⟩
          have hzc' : z.match_type = c := of_decide_eq_true hzc
          have hxz : ruleLeB x z = true := by
            rcases List.mem_cons.mp hmem with rfl | hmem
            · exact hxy
            · exact ruleLeB_trans x y z hxy (hy z hmem)
          have hmt : x.match_type = z.match_type := hx.trans hzc'.symm
          simp only [prioLeB, decide_eq_true_eq]
          exact ruleLeB_of_eq_type_le hmt hxz
        cases hfl : (y :: ys).filter (fun r => decide (r.match_type = c)) with
        | nil =>
          rw [List.filter_cons_of_pos (by simpa using hx), hfl, insertS]
        | cons z zs =>
          have hpz : prioLeB x z = true := hfs z (by rw [hfl]; exact List.mem_cons_self z zs)
          rw [List.filter_cons_of_pos (by simpa using hx), hfl, insertS, if_pos hpz]
      · rw [if_neg hx]
        rw [List.filter_cons_of_neg (by simpa using hx)]
    · rw [insertS, if_neg hxy]
      by_cases hyc : y.match_type = c
      · rw [List.filter_cons_of_pos (by simpa using hyc),
          List.filter_cons_of_pos (by simpa using hyc)]
        by_cases hx : x.match_type = c
        · rw [if_pos hx]
          have hmt : x.match_type = y.match_type := hx.trans hyc.symm
          have hpxy : prioLeB x y = false :=
            prioLeB_false_of_ruleLeB_false hmt (Bool.eq_false_iff.mpr hxy)
          rw [insertS, if_neg (by simp [hpxy])]
          rw [ih hys, if_pos hx]
        · rw [if_neg hx]
          rw [ih hys, if_neg hx]
      · rw [List.filter_cons_of_neg (by simpa using hyc),
          List.filter_cons_of_neg (by simpa using hyc)]
        rw [ih hys]

theorem sortS_filter (c : MatchType) (l : List CategoryRule) :
    (sortS ruleLeB l).filter (fun r => decide (r.match_type = c)) =
      sortS prioLeB (l.filter (fun r => decide (r.match_type = c))) := by
  induction l with
  | nil => rw [sortS]; rfl
  | cons x xs ih =>
    rw [sortS, filter_insertS c x (sortS ruleLeB xs)
      (sortS_pairwise ruleLeB ruleLeB_total ruleLeB_trans xs)]
    by_cases hx : x.match_type = c
    · rw [if_pos hx, ih, List.filter_cons_of_pos (by simpa using hx), sortS]
    · rw [if_neg hx, ih, List.filter_cons_of_neg (by simpa using hx)]

/-- C8 counterexample: two active equal-priority counterparty-account rules
whose database order is the reverse of their name order.  The loaded cache
keeps the source order `["B", "A"]`, so equal-priority ties are not broken
by rule name. -/
theorem rule_cache_name_tiebreak_counterexample :
    ¬ List.Pairwise
      (fun a b : CategoryRule =>
        a.priority < b.priority ∨ (a.priority = b.priority ∧ a.name.data ≤ b.name.data))
      (loadCaches
        [{ name := "B", match_type := .protiucet, match_mode := .exact,
           match_value := "x", priority := 5 },
         { name := "A", match_type := .protiucet, match_mode := .exact,
           match_value := "y", priority := 5 }]).protiucet := by
  decide

/-- C8 (amended): after the cache is loaded, each of the three buckets holds
exactly the active rules of its match dimension, sorted ascending by
priority with equal-priority ties kept in the order the rule source returned
them (the query orders only by match type and priority, not by name). -/
theorem rule_cache_partition_sorted (db : List CategoryRule) :
    ((loadCaches db).protiucet =
      sortS prioLeB ((db.filter (fun r => r.is_active)).filter
        (fun r => decide (r.match_type = .protiucet)))) ∧
    ((loadCaches db).merchant =
      sortS prioLeB ((db.filter (fun r => r.is_active)).filter
        (fun r => decide (r.match_type = .merchant)))) ∧
    ((loadCaches db).keyword =
      sortS prioLeB ((db.filter (fun r => r.is_active)).filter
        (fun r => decide (r.match_type = .keyword)))) ∧
    List.Pairwise (fun a b => a.priority ≤ b.priority) (loadCaches db).protiucet ∧
    List.Pairwise (fun a b => a.priority ≤ b.priority) (loadCaches db).merchant ∧
    List.Pairwise (fun a b => a.priority ≤ b.priority) (loadCaches db).keyword ∧
    List.Perm (loadCaches db).protiucet
      ((db.filter (fun r => r.is_active)).filter
        (fun r => decide (r.match_type = .protiucet))) ∧
    List.Perm (loadCaches db).merchant
      ((db.filter (fun r => r.is_active)).filter
        (fun r => decide (r.match_type = .merchant))) ∧
    List.Perm (loadCaches db).keyword
      ((db.filter (fun r => r.is_active)).filter
        (fun r => decide (r.match_type = .keyword))) := by
  have hchar : ∀ c : MatchType,
      (sortS ruleLeB (db.filter (fun r => r.is_active))).filter
        (fun r => decide (r.match_type = c)) =
      sortS prioLeB ((db.filter (fun r => r.is_active)).filter
        (fun r => decide (r.match_type = c))) :=
    fun c => sortS_filter c (db.filter (fun r => r.is_active))
  have hpair : ∀ c : MatchType,
      List.Pairwise (fun a b : CategoryRule => a.priority ≤ b.priority)
        (sortS prioLeB ((db.filter (fun r => r.is_active)).filter
          (fun r => decide (r.match_type = c)))) := by
    intro c
    have := sortS_pairwise prioLeB prioLeB_total prioLeB_trans
      ((db.filter (fun r => r.is_active)).filter (fun r => decide (r.match_type = c)))
    exact this.imp (fun h => by simpa [prioLeB] using h)
  have hperm : ∀ c : MatchType,
      List.Perm (sortS prioLeB ((db.filter (fun r => r.is_active)).filter
          (fun r => decide (r.match_type = c))))
        ((db.filter (fun r => r.is_active)).filter
          (fun r => decide (r.match_type = c))) :=
    fun c => sortS_perm prioLeB _
  refine ⟨hchar .protiucet, hchar .merchant, hchar .keyword, ?_, ?_, ?_, ?_, ?_, ?_⟩
  · rw [show (loadCaches db).protiucet = _ from hchar .protiucet]
    exact hpair .protiucet
  · rw [show (loadCaches db).merchant = _ from hchar .merchant]
    exact hpair .merchant
  · rw [show (loadCaches db).keyword = _ from hchar .keyword]
    exact hpair .keyword
  · rw [show (loadCaches db).protiucet = _ from hchar .protiucet]
    exact hperm .protiucet
  · rw [show (loadCaches db).merchant = _ from hchar .merchant]
    exact hperm .merchant
  · rw [show (loadCaches db).keyword = _ from hchar .keyword]
    exact hperm .keyword


/-! ## C4, C10: import pipeline lemmas -/

theorem dget_cons (f v : String) (rest : Row) (k : String) :
    dget ((f, v) :: rest) k = if f = k then some v else dget rest k := by
  by_cases h : f = k
  · simp [dget, List.find?_cons, h]
  · simp [dget, List.find?_cons, h]

theorem lookupV_cons (f : String) (val : FieldVal) (rest : List (String × FieldVal))
    (k : String) :
    lookupV ((f, val) :: rest) k = if f = k then some val else lookupV rest k := by
  by_cases h : f = k
  · simp [lookupV, List.find?_cons, h]
  · simp [lookupV, List.find?_cons, h]

theorem rowId_nil : rowId ([] : Row) = "" := by decide

theorem rowId_cons (f v : String) (rest : Row) :
    rowId ((f, v) :: rest) = if f = "id_transakce" then pyStrip v else rowId rest := by
  unfold rowId
  rw [dget_cons]
  split_ifs <;> rfl

theorem dget_eq_none (d : Row) (k : String) (h : ∀ e ∈ d, e.1 ≠ k) :
    dget d k = none := by
  induction d with
  | nil => rfl
  | cons e rest ih =>
    obtain ⟨f, v⟩ := e
    rw [dget_cons, if_neg (h (f, v) (List.mem_cons_self _ _))]
    exact ih (fun e' he' => h e' (List.mem_cons_of_mem _ he'))

theorem rowId_eq_empty_of_absent (row : Row)
    (h : ∀ e ∈ row, e.1 ≠ "id_transakce") : rowId row = "" := by
  unfold rowId
  rw [dget_eq_none row _ h]
  decide

theorem convert_keys_subset (row : Row) (conv : List (String × FieldVal))
    (hok : convertRowData row = .ok conv) :
    ∀ e ∈ conv, e.1 ∈ row.map Prod.fst := by
  induction row generalizing conv with
  | nil =>
    simp only [convertRowData, Except.ok.injEq] at hok
    subst hok
    intro e he
    exact absurd he (List.not_mem_nil e)
  | cons p rest ih =>
    obtain ⟨f, v⟩ := p
    by_cases hb : pyStrip v = ""
    · simp only [convertRowData, if_pos hb] at hok
      intro e he
      exact List.mem_cons_of_mem _ (ih conv hok e he)
    · simp only [convertRowData, if_neg hb] at hok
      cases hcv : convertValue f (pyStrip v) with
      | error e => rw [hcv] at hok; simp at hok
      | ok val =>
        rw [hcv] at hok
        cases hcr : convertRowData rest with
        | error e => rw [hcr] at hok; simp at hok
        | ok l =>
          rw [hcr] at hok
          simp only [Except.ok.injEq] at hok
          subst hok
          intro e he
          rcases List.mem_cons.mp he with rfl | he
          · exact List.mem_cons_self _ _
          · exact List.mem_cons_of_mem _ (ih l hcr e he)

theorem lookupV_eq_none_of_absent (l : List (String × FieldVal)) (k : String)
    (h : ∀ e ∈ l, e.1 ≠ k) : lookupV l k = none := by
  induction l with
  | nil => rfl
  | cons e rest ih =>
    obtain ⟨f, v⟩ := e
    rw [lookupV_cons, if_neg (h (f, v) (List.mem_cons_self _ _))]
    exact ih (fun e' he' => h e' (List.mem_cons_of_mem _ he'))

theorem convert_id_lookup (row : Row) (conv : List (String × FieldVal))
    (hnd : (row.map Prod.fst).Nodup) (hok : convertRowData row = .ok conv) :
    getStr conv "id_transakce" "" = rowId row := by
  induction row generalizing conv with
  | nil =>
    simp only [convertRowData, Except.ok.injEq] at hok
    subst hok
    rw [rowId_nil]
    rfl
  | cons p rest ih =>
    obtain ⟨f, v⟩ := p
    rw [List.map_cons, List.nodup_cons] at hnd
    obtain ⟨hf, hnd'⟩ := hnd
    have habsent : f = "id_transakce" → ∀ e ∈ rest, e.1 ≠ "id_transakce" := by
      intro hid e' he' heq
      exact hf (List.mem_map.mpr ⟨e', he', heq.trans hid.symm⟩)
    rw [rowId_cons]
    by_cases hb : pyStrip v = ""
    · simp only [convertRowData, if_pos hb] at hok
      rw [ih conv hnd' hok]
      by_cases hid : f = "id_transakce"
      · rw [if_pos hid, hb, rowId_eq_empty_of_absent rest (habsent hid)]
      · rw [if_neg hid]
    · simp only [convertRowData, if_neg hb] at hok
      cases hcv : convertValue f (pyStrip v) with
      | error e => rw [hcv] at hok; simp at hok
      | ok val =>
        rw [hcv] at hok
        cases hcr : convertRowData rest with
        | error e => rw [hcr] at hok; simp at hok
        | ok l =>
          rw [hcr] at hok
          simp only [Except.ok.injEq] at hok
          subst hok
          by_cases hid : f = "id_transakce"
          · rw [if_pos hid]
            have hval : val = FieldVal.str (pyStrip v) := by
              rw [hid] at hcv
              rw [convertValue, if_neg (by decide), if_neg (by decide)] at hcv
              simp only [Except.ok.injEq] at hcv
              exact hcv.symm
            subst hval
            simp [getStr, lookupV_cons, hid]
          · rw [if_neg hid]
            rw [← ih l hnd' hcr]
            simp [getStr, lookupV_cons, hid]

theorem build_id (row : Row) (conv : List (String × FieldVal))
    (hnd : (row.map Prod.fst).Nodup) (hok : convertRowData row = .ok conv) :
    (buildTransaction conv).id_transakce = rowId row := by
  rw [show (buildTransaction conv).id_transakce = getStr conv "id_transakce" "" from rfl]
  exact convert_id_lookup row conv hnd hok

theorem applyRule_id (r : CategoryRule) (t : Transaction) :
    (applyRuleToTransaction r t).id_transakce = t.id_transakce := rfl

theorem applyMatched_id (o : Option CategoryRule) (t : Transaction) :
    (applyMatched o t).id_transakce = t.id_transakce := by
  cases o <;> rfl

theorem derivePv_id (t : Transaction) : (derivePv t).id_transakce = t.id_transakce := by
  unfold derivePv
  split_ifs <;> rfl

theorem applyAuto_id (re : RegexOracle) (cache : RulesCache) (t : Transaction) :
    (applyAutodetectionRules re cache t).id_transakce = t.id_transakce := by
  unfold applyAutodetectionRules
  exact applyMatched_id _ t

/-- A row processes successfully against a store that cannot collide with it
(`rowOk` evaluates the pipeline against the empty store). -/
def rowOk (re : RegexOracle) (cache : RulesCache) (row : Row) : Bool :=
  (processRow re cache [] 1 row).1.success

theorem processRow_fresh (re : RegexOracle) (cache : RulesCache) (store : Store)
    (n : Nat) (row : Row) (hnd : (row.map Prod.fst).Nodup)
    (hfr : rowId row ∉ store) :
    (processRow re cache store n row).1.success = rowOk re cache row ∧
    (processRow re cache store n row).2 =
      (if rowOk re cache row = true then store ++ [rowId row] else store) := by
  unfold rowOk processRow
  rw [if_neg (by rintro ⟨_, h2⟩; exact hfr h2),
    if_neg (by rintro ⟨_, h2⟩; exact absurd h2 (List.not_mem_nil _))]
  cases hconv : convertRowData row with
  | error e => simp
  | ok conv =>
    have hid : (derivePv (applyAutodetectionRules re cache
        (buildTransaction conv))).id_transakce = rowId row := by
      rw [derivePv_id, applyAuto_id, build_id row conv hnd hconv]
    have hu1 : uniqueErrors store
        (derivePv (applyAutodetectionRules re cache (buildTransaction conv))) = [] := by
      unfold uniqueErrors
      rw [if_neg (by rintro ⟨_, h2⟩; rw [hid] at h2; exact hfr h2)]
    have hu2 : uniqueErrors []
        (derivePv (applyAutodetectionRules re cache (buildTransaction conv))) = [] := by
      unfold uniqueErrors
      rw [if_neg (by rintro ⟨_, h2⟩; exact absurd h2 (List.not_mem_nil _))]
    dsimp only
    rw [hu1, hu2, List.append_nil]
    split_ifs <;> simp_all [hid]

theorem processRow_dup (re : RegexOracle) (cache : RulesCache) (store : Store)
    (n : Nat) (row : Row) (hne : rowId row ≠ "") (hmem : rowId row ∈ store) :
    processRow re cache store n row =
      ({ success := false, row_number := n,
         error_message := some ("Duplicate transaction ID: " ++ rowId row) }, store) := by
  unfold processRow
  rw [if_pos ⟨hne, hmem⟩]

theorem runRows_length (re : RegexOracle) (cache : RulesCache) :
    ∀ (rows : List Row) (store : Store) (n : Nat),
    (runRows re cache store n rows).1.length = rows.length := by
  intro rows
  induction rows with
  | nil => intro store n; rfl
  | cons row rest ih =>
    intro store n
    rw [runRows]
    simpa using ih _ (n + 1)

theorem runRows_fresh (re : RegexOracle) (cache : RulesCache) :
    ∀ (rows : List Row) (store : Store) (n : Nat),
    (∀ r ∈ rows, (r.map Prod.fst).Nodup) →
    (∀ r ∈ rows, rowId r ≠ "") →
    (∀ r ∈ rows, rowOk re cache r = true) →
    (∀ r ∈ rows, rowId r ∉ store) →
    (rows.map rowId).Nodup →
    (∀ res ∈ (runRows re cache store n rows).1, res.success = true) ∧
    (runRows re cache store n rows).2 = store ++ rows.map rowId := by
  intro rows
  induction rows with
  | nil =>
    intro store n _ _ _ _ _
    exact ⟨fun res hres => absurd hres (List.not_mem_nil res), by simp [runRows]⟩
  | cons row rest ih =>
    intro store n hnd hne hok hfr hnodup
    have hrow := processRow_fresh re cache store n row
      (hnd row (List.mem_cons_self _ _))
      (hfr row (List.mem_cons_self _ _))
    have hsucc : (processRow re cache store n row).1.success = true :=
      hrow.1.trans (hok row (List.mem_cons_self _ _))
    have hstore : (processRow re cache store n row).2 = store ++ [rowId row] := by
      rw [hrow.2, if_pos (hok row (List.mem_cons_self _ _))]
    rw [List.map_cons, List.nodup_cons] at hnodup
    obtain ⟨hhd, hnodup'⟩ := hnodup
    have hfr' : ∀ r ∈ rest, rowId r ∉ store ++ [rowId row] := by
      intro r hr hmem
      rcases List.mem_append.mp hmem with hm | hm
      · exact hfr r (List.mem_cons_of_mem _ hr) hm
      · rcases List.mem_singleton.mp hm with hm
        exact hhd (hm ▸ List.mem_map_of_mem rowId hr)
    have htail := ih (store ++ [rowId row]) (n + 1)
      (fun r hr => hnd r (List.mem_cons_of_mem _ hr))
      (fun r hr => hne r (List.mem_cons_of_mem _ hr))
      (fun r hr => hok r (List.mem_cons_of_mem _ hr))
      hfr' hnodup'
    rw [runRows]
    constructor
    · intro res hres
      rcases List.mem_cons.mp hres with hres | hres
      · rw [hres]
        exact hsucc
      · exact htail.1 res (by rw [hstore] at hres; exact hres)
    · show (runRows re cache (processRow re cache store n row).2 (n + 1) rest).2 = _
      rw [hstore, htail.2]
      simp

theorem string_data_append (a b : String) : (a ++ b).data = a.data ++ b.data := by
  cases a
  cases b
  rfl

theorem dup_msg_is_duplicate (idt : String) :
    msgIsDuplicate (some ("Duplicate transaction ID: " ++ idt)) = true := by
  unfold msgIsDuplicate pyInStr
  refine decide_eq_true ?_
  show "duplicate".data <:+: (pyLower ("Duplicate transaction ID: " ++ idt)).data
  have hlow : (pyLower ("Duplicate transaction ID: " ++ idt)).data =
      List.map lowerChar ("Duplicate transaction ID: ".data) ++
        List.map lowerChar idt.data := by
    show pyLowerL ("Duplicate transaction ID: " ++ idt).data = _
    rw [string_data_append]
    exact List.map_append lowerChar _ _
  rw [hlow]
  have h1 : List.map lowerChar ("Duplicate transaction ID: ".data) =
      "duplicate transaction id: ".data := by decide
  have h2 : "duplicate".data ++ " transaction id: ".data =
      "duplicate transaction id: ".data := by decide
  refine ⟨[], " transaction id: ".data ++ List.map lowerChar idt.data, ?_⟩
  rw [h1, List.nil_append, ← List.append_assoc, h2]

theorem runRows_dup (re : RegexOracle) (cache : RulesCache) :
    ∀ (rows : List Row) (store : Store) (n : Nat),
    (∀ r ∈ rows, rowId r ≠ "" ∧ rowId r ∈ store) →
    (∀ res ∈ (runRows re cache store n rows).1,
      res.success = false ∧ msgIsDuplicate res.error_message = true) ∧
    (runRows re cache store n rows).2 = store := by
  intro rows
  induction rows with
  | nil =>
    intro store n _
    exact ⟨fun res hres => absurd hres (List.not_mem_nil res), rfl⟩
  | cons row rest ih =>
    intro store n hdup
    have hrow := processRow_dup re cache store n row
      (hdup row (List.mem_cons_self _ _)).1 (hdup row (List.mem_cons_self _ _)).2
    have htail := ih store (n + 1) (fun r hr => hdup r (List.mem_cons_of_mem _ hr))
    rw [runRows, hrow]
    constructor
    · intro res hres
      rcases List.mem_cons.mp hres with hres | hres
      · rw [hres]
        exact ⟨rfl, dup_msg_is_duplicate (rowId row)⟩
      · exact htail.1 res hres
    · exact htail.2

theorem filter_all_true (results : List ImportResult)
    (h : ∀ r ∈ results, r.success = true) :
    (results.filter (fun r => r.success)).length = results.length ∧
    (results.filter (fun r => !r.success && msgIsDuplicate r.error_message)).length = 0 := by
  induction results with
  | nil => exact ⟨rfl, rfl⟩
  | cons r rest ih =>
    have hr := h r (List.mem_cons_self _ _)
    have := ih (fun x hx => h x (List.mem_cons_of_mem _ hx))
    constructor
    · rw [List.filter_cons_of_pos (by simp [hr])]
      simpa using this.1
    · rw [List.filter_cons_of_neg (by simp [hr])]
      exact this.2

theorem filter_all_dup (results : List ImportResult)
    (h : ∀ r ∈ results, r.success = false ∧ msgIsDuplicate r.error_message = true) :
    (results.filter (fun r => r.success)).length = 0 ∧
    (results.filter (fun r => !r.success && msgIsDuplicate r.error_message)).length =
      results.length := by
  induction results with
  | nil => exact ⟨rfl, rfl⟩
  | cons r rest ih =>
    have hr := h r (List.mem_cons_self _ _)
    have := ih (fun x hx => h x (List.mem_cons_of_mem _ hx))
    constructor
    · rw [List.filter_cons_of_neg (by simp [hr.1])]
      exact this.1
    · rw [List.filter_cons_of_pos (by simp [hr.1, hr.2])]
      simpa using this.2

/-- C4: for a parsed file whose rows carry pairwise-distinct non-empty
external transaction IDs, none already persisted, and which all process
cleanly, the first import reports `imported = N, skipped = 0` and importing
the same rows again against the resulting store reports
`imported = 0, skipped = N`. -/
theorem import_idempotence (re : RegexOracle) (cache : RulesCache) (store : Store)
    (rows : List Row)
    (hkeys : ∀ r ∈ rows, (r.map Prod.fst).Nodup)
    (hne : ∀ r ∈ rows, rowId r ≠ "")
    (hnodup : (rows.map rowId).Nodup)
    (hfresh : ∀ r ∈ rows, rowId r ∉ store)
    (hok : ∀ r ∈ rows, rowOk re cache r = true) :
    (importCsvModel re cache store rows).1.imported = rows.length ∧
    (importCsvModel re cache store rows).1.skipped = 0 ∧
    (importCsvModel re cache
      (importCsvModel re cache store rows).2 rows).1.imported = 0 ∧
    (importCsvModel re cache
      (importCsvModel re cache store rows).2 rows).1.skipped = rows.length := by
  have hrun := runRows_fresh re cache rows store 1 hkeys hne hok hfresh hnodup
  have hcount := filter_all_true (runRows re cache store 1 rows).1 hrun.1
  have hlen := runRows_length re cache rows store 1
  have hdup2 : ∀ r ∈ rows, rowId r ≠ "" ∧ rowId r ∈ store ++ rows.map rowId :=
    fun r hr => ⟨hne r hr, List.mem_append_right _ (List.mem_map_of_mem rowId hr)⟩
  have hrun2 := runRows_dup re cache rows (store ++ rows.map rowId) 1 hdup2
  have hcount2 := filter_all_dup
    (runRows re cache (store ++ rows.map rowId) 1 rows).1 hrun2.1
  have hlen2 := runRows_length re cache rows (store ++ rows.map rowId) 1
  refine ⟨?_, ?_, ?_, ?_⟩ <;> simp only [importCsvModel, summarize]
  · exact hcount.1.trans hlen
  · exact hcount.2
  · rw [hrun.2]
    exact hcount2.1
  · rw [hrun.2]
    exact hcount2.2.trans hlen2

def c4Row : Row :=
  [("datum", "14.08.2025"), ("ucet", "123"), ("typ", "T"),
   ("castka", "100"), ("id_transakce", "TX1")]

/-- C4 witness: one clean row imports, then dedupes on re-import. -/
theorem import_idempotence_witness :
    (importCsvModel (fun _ _ _ => false) {} [] [c4Row]).1.imported = 1 ∧
    (importCsvModel (fun _ _ _ => false) {} [] [c4Row]).1.skipped = 0 ∧
    (importCsvModel (fun _ _ _ => false) {}
      (importCsvModel (fun _ _ _ => false) {} [] [c4Row]).2 [c4Row]).1.imported = 0 ∧
    (importCsvModel (fun _ _ _ => false) {}
      (importCsvModel (fun _ _ _ => false) {} [] [c4Row]).2 [c4Row]).1.skipped = 1 :=
  import_idempotence (fun _ _ _ => false) {} [] [c4Row]
    (by decide) (by decide) (by decide) (by decide) (by decide)

theorem filter_partition_three (results : List ImportResult) :
    (results.filter (fun r => r.success)).length +
    (results.filter (fun r => !r.success && msgIsDuplicate r.error_message)).length +
    (results.filter (fun r => !r.success && !msgIsDuplicate r.error_message)).length =
      results.length := by
  induction results with
  | nil => rfl
  | cons r rest ih =>
    cases hb : r.success <;> cases hd : msgIsDuplicate r.error_message <;>
      simp [List.filter_cons, hb, hd] <;> omega

theorem filter_fail_split (results : List ImportResult) :
    (results.filter (fun r => !r.success)).length +
      (results.filter (fun r => r.success)).length = results.length := by
  induction results with
  | nil => rfl
  | cons r rest ih =>
    cases hb : r.success <;> simp [List.filter_cons, hb] <;> omega

/-- C10: in every run summary, `imported + skipped + errors = total_rows`
with `total_rows` the number of parsed rows; `skipped` counts exactly the
failed rows whose message contains `"duplicate"` case-insensitively,
`errors` the remaining failed rows, and `error_details` has exactly one
`(row number, message)` entry per non-imported row, duplicates included. -/
theorem import_summary_partition (re : RegexOracle) (cache : RulesCache)
    (store : Store) (rows : List Row) :
    (importCsvModel re cache store rows).1.total_rows = rows.length ∧
    (importCsvModel re cache store rows).1.imported +
      (importCsvModel re cache store rows).1.skipped +
      (importCsvModel re cache store rows).1.errors =
      (importCsvModel re cache store rows).1.total_rows ∧
    (importCsvModel re cache store rows).1.imported =
      ((runRows re cache store 1 rows).1.filter (fun r => r.success)).length ∧
    (importCsvModel re cache store rows).1.skipped =
      ((runRows re cache store 1 rows).1.filter
        (fun r => !r.success && msgIsDuplicate r.error_message)).length ∧
    (importCsvModel re cache store rows).1.errors =
      ((runRows re cache store 1 rows).1.filter
        (fun r => !r.success && !msgIsDuplicate r.error_message)).length ∧
    (importCsvModel re cache store rows).1.error_details =
      ((runRows re cache store 1 rows).1.filter (fun r => !r.success)).map
        (fun r => (r.row_number, r.error_message)) ∧
    (importCsvModel re cache store rows).1.error_details.length +
      (importCsvModel re cache store rows).1.imported =
      (importCsvModel re cache store rows).1.total_rows := by
  refine ⟨rfl, ?_, rfl, rfl, rfl, rfl, ?_⟩ <;> simp only [importCsvModel, summarize]
  · rw [filter_partition_three]
    exact runRows_length re cache rows store 1
  · rw [List.length_map]
    rw [filter_fail_split]
    exact runRows_length re cache rows store 1
